import Mathlib

/-!
Verification of the AQI bulletin pipeline.

The definitions below are a shallow embedding of the Python sources
`complete_aqi_extractor_fixed.py`, `aqi_pdf_downloader.py` and `get_api.py`.
Strings are modelled as `List Char`; Python's substring operator `in` is
`containsSub`; `str.lower()` is modelled on the ASCII range by `Char.toLower`;
the regex finding standalone 2-3 digit numbers is modelled by maximal
word-character runs that consist solely of digits (the word-boundary
anchors of the regex exclude digit runs adjacent to letters, underscores,
or further digits).  Calendar dates are represented by their serial day
number; `datetime + timedelta(days=1)` is `Nat` successor on that number.
-/

/-- Membership of `c` in Python's `string.whitespace` (ASCII part), as used
by `str.strip()`. -/
def isSpaceChar (c : Char) : Bool :=
  c = ' ' || c = '\t' || c = '\n' || c = '\x0b' || c = '\x0c' || c = '\r'

/-- Word characters of the regex escape for words (ASCII fragment):
letters, digits and the underscore. -/
def isWordChar (c : Char) : Bool :=
  c.isAlphanum || c = '_'

/-- Test that `pat` occurs at the start of `s`. -/
def listStartsWith : List Char → List Char → Bool
  | [], _ => true
  | _ :: _, [] => false
  | p :: ps, c :: cs => p = c && listStartsWith ps cs

/-- Python's substring test `pat in s`. -/
def containsSub (pat : List Char) : List Char → Bool
  | [] => listStartsWith pat []
  | c :: cs => listStartsWith pat (c :: cs) || containsSub pat cs

/-- Python's `text.split(sep)` for a one-character separator; an empty text
yields one empty field. -/
def splitOnChar (sep : Char) : List Char → List (List Char)
  | [] => [[]]
  | c :: cs =>
    let r := splitOnChar sep cs
    if c = sep then [] :: r
    else
      match r with
      | [] => [[c]]
      | h :: t => (c :: h) :: t

/-- Python's `line.strip()`: drop whitespace from both ends. -/
def stripList (s : List Char) : List Char :=
  ((s.dropWhile isSpaceChar).reverse.dropWhile isSpaceChar).reverse

/-- Python's `s.lower()` restricted to ASCII letters. -/
def lowerStr (s : List Char) : List Char :=
  s.map Char.toLower

/-- Maximal runs of characters satisfying `p`; the accumulator holds the
current run reversed. -/
def runsAux (p : Char → Bool) : List Char → List Char → List (List Char)
  | [], acc => if acc.isEmpty then [] else [acc.reverse]
  | c :: cs, acc =>
    if p c then runsAux p cs (c :: acc)
    else if acc.isEmpty then runsAux p cs []
    else acc.reverse :: runsAux p cs []

/-- Maximal word-character runs of a string, in order. -/
def wordRuns (s : List Char) : List (List Char) :=
  runsAux isWordChar s []

/-- Maximal digit runs of a string, in order (used only to state the
specification's reading of the number search). -/
def digitRuns (s : List Char) : List (List Char) :=
  runsAux Char.isDigit s []

/-- Numeric value of a digit string. -/
def strToNat (w : List Char) : Nat :=
  w.foldl (fun a c => a * 10 + (c.toNat - 48)) 0

/-- The matches of the regex searching for standalone numbers of 2 to 3
digits in `findall` order: maximal word-character runs that consist solely
of digits and have length 2 or 3.  Runs adjacent to letters or underscores
fail the word-boundary anchors and runs of 4 or more digits exceed the
counted repetition, so neither can match. -/
def digitTokens (s : List Char) : List (List Char) :=
  (wordRuns s).filter (fun w => w.all Char.isDigit && (w.length == 2 || w.length == 3))

/-- The numeric candidates of a window, in order of occurrence. -/
def numberCandidates (s : List Char) : List Nat :=
  (digitTokens s).map strToNat

/-- The range test `50 <= int(value) <= 500` from the extractor. -/
def inRange (n : Nat) : Bool :=
  decide (50 ≤ n) && decide (n ≤ 500)

/-- The loop over `index_matches` taking the first in-range candidate. -/
def find_index (s : List Char) : Option Nat :=
  (numberCandidates s).find? inRange

def bandGood : List Char := "Good".data

def bandSatisfactory : List Char := "Satisfactory".data

def bandModerate : List Char := "Moderate".data

def bandPoor : List Char := "Poor".data

def bandVeryPoor : List Char := "Very Poor".data

def bandSevere : List Char := "Severe".data

def colGood : List Char := "00FF00".data

def colSatisfactory : List Char := "90EE90".data

def colModerate : List Char := "FFFF00".data

def colPoor : List Char := "FFA500".data

def colVeryPoor : List Char := "FF0000".data

def colSevere : List Char := "800080".data

/-- The `aqi_colors` dictionary in its insertion order, which is the
iteration order of the band search loop. -/
def aqi_colors : List (List Char × List Char) :=
  [(bandGood, colGood), (bandSatisfactory, colSatisfactory),
   (bandModerate, colModerate), (bandPoor, colPoor),
   (bandVeryPoor, colVeryPoor), (bandSevere, colSevere)]

/-- The band search loop: the first category of `aqi_colors` occurring as a
literal substring of the window, with its colour. -/
def find_band (s : List Char) : Option (List Char × List Char) :=
  aqi_colors.find? (fun p => containsSub p.1 s)

def tokPM25 : List Char := "PM2.5".data

def tokPM10 : List Char := "PM10".data

def tokO3 : List Char := "O3".data

def tokNO2 : List Char := "NO2".data

def tokSO2 : List Char := "SO2".data

def tokCO : List Char := "CO".data

def dispPM25 : List Char := "PM₂.₅".data

def dispPM10 : List Char := "PM₁₀".data

def dispO3 : List Char := "O₃".data

def dispNO2 : List Char := "NO₂".data

def dispSO2 : List Char := "SO₂".data

def dispCO : List Char := "CO".data

/-- The six pollutant checks of the extractor, in source order: the searched
token paired with the display name appended to the result list. -/
def pollutantTokens : List (List Char × List Char) :=
  [(tokPM25, dispPM25), (tokPM10, dispPM10), (tokO3, dispO3),
   (tokNO2, dispNO2), (tokSO2, dispSO2), (tokCO, dispCO)]

/-- Python's `search_text.replace(' ', '')`: only space characters are
removed, other whitespace stays. -/
def removeSpaces (s : List Char) : List Char :=
  s.filter (fun c => c != ' ')

/-- The pollutant detection block: each token is tested independently as a
substring of the space-stripped window and every present token contributes
its display name, in the fixed source order. -/
def find_pollutants (s : List Char) : List (List Char) :=
  (pollutantTokens.filter (fun p => containsSub p.1 (removeSpaces s))).map Prod.snd

/-- Modelled from the spec: the spec describes the pollutant test as taking
place in the whitespace-stripped window, so this variant removes every
whitespace character rather than only spaces.  Stated only for comparison
with `find_pollutants`, which is translated from the code. -/
def find_pollutants_spec (s : List Char) : List (List Char) :=
  (pollutantTokens.filter
    (fun p => containsSub p.1 (s.filter (fun c => !isSpaceChar c)))).map Prod.snd

/-- Modelled from the spec: the claimed reading of the number search, taking
every maximal digit run of length 2 or 3 (even one flanked by letters) as a
candidate.  Stated only for comparison with `find_index`, which is
translated from the code's regex. -/
def find_index_spec (s : List Char) : Option Nat :=
  (((digitRuns s).filter (fun w => w.length == 2 || w.length == 3)).map strToNat).find? inRange

/-- One extracted observation: the `data` dictionary returned by
`find_data_in_text` (an empty pollutant list models the absent key). -/
structure AQIRecord where
  air_quality : List Char
  color : List Char
  index_value : Nat
  pollutants : List (List Char)
  deriving DecidableEq

/-- The body of the candidate loop of `find_data_in_text` for one search
window: a record is produced exactly when both a band and an in-range index
value were found. -/
def processWindow (w : List Char) : Option AQIRecord :=
  match find_band w, find_index w with
  | some bc, some n => some ⟨bc.1, bc.2, n, find_pollutants w⟩
  | _, _ => none

/-- The candidacy test of a line: the lowercased city occurs in the
lowercased line. -/
def candidateLine (city line : List Char) : Bool :=
  containsSub (lowerStr city) (lowerStr line)

/-- The search window for candidate line `i`: the stripped line joined with
the next (up to) 3 stripped lines by single spaces. -/
def mkWindow (ls : List (List Char)) (i : Nat) : List Char :=
  List.intercalate [' '] (stripList (ls.getD i []) :: ((ls.drop (i + 1)).take 3).map stripList)

/-- The search windows of a page in document order, one per line containing
the city case-insensitively. -/
def candidateWindows (text city : List Char) : List (List Char) :=
  let ls := splitOnChar '\n' text
  ((List.range ls.length).filter (fun i => candidateLine city (ls.getD i []))).map (mkWindow ls)

/-- The extractor `find_data_in_text`: the first candidate window yielding a
complete record wins; windows with no band or no in-range number are passed
over. -/
def find_data_in_text (text city : List Char) : Option AQIRecord :=
  (candidateWindows text city).findSome? processWindow

/-- The page loop of `process_pdf`: pages are scanned in order, a page is
analysed when its text contains the city case-insensitively, and the first
complete record is returned. -/
def process_pdf (city : List Char) (pages : List (List Char)) : Option AQIRecord :=
  pages.findSome? (fun t => if candidateLine city t then find_data_in_text t city else none)

/-- The serial day numbers from `s` to `e` inclusive, in ascending order
(the `while current_date <= end_dt` loop with a one-day step). -/
def dateRangeList (s e : Nat) : List Nat :=
  (List.range (e + 1 - s)).map (fun k => s + k)

/-- The orchestrator `process_date_range`: for each day of the range, the
day's document (when present) is scanned and a dated record is appended on
success; absent documents or failed extractions are skipped silently. -/
def process_date_range (docAt : Nat → Option (List (List Char))) (city : List Char)
    (s e : Nat) : List (Nat × AQIRecord) :=
  (dateRangeList s e).filterMap
    (fun d => ((docAt d).bind (process_pdf city)).map (fun r => (d, r)))

/-- Nonempty all-digit field, as matched by the numeric directives of
`strptime`. -/
def allDigits (s : List Char) : Bool :=
  !s.isEmpty && s.all Char.isDigit

def isLeapYear (y : Nat) : Bool :=
  y % 4 == 0 && (y % 100 != 0 || y % 400 == 0)

def daysInMonth (y m : Nat) : Nat :=
  if m = 2 then (if isLeapYear y then 29 else 28)
  else if m = 4 || m = 6 || m = 9 || m = 11 then 30
  else 31

/-- Parsing of a date string with `datetime.strptime(s, "%Y-%m-%d")`: three
dash-separated numeric fields, the year of exactly 4 digits and at least 1,
the month and day of 1 or 2 digits, forming a real calendar date.  A failure
(`none`) models the raised `ValueError`. -/
def parseDate (s : List Char) : Option (Nat × Nat × Nat) :=
  match splitOnChar '-' s with
  | [ys, ms, ds] =>
    if allDigits ys && ys.length == 4 && allDigits ms && ms.length ≤ 2
        && allDigits ds && ds.length ≤ 2 then
      let y := strToNat ys
      let m := strToNat ms
      let d := strToNat ds
      if 1 ≤ y && 1 ≤ m && m ≤ 12 && 1 ≤ d && d ≤ daysInMonth y m then
        some (y, m, d)
      else none
    else none
  | _ => none

def daysBeforeMonth (y m : Nat) : Nat :=
  ((List.range (m - 1)).map (fun k => daysInMonth y (k + 1))).sum

/-- Serial day number of a calendar date (proleptic Gregorian rata die); it
embeds `datetime` values so that chronological comparison and the one-day
step of the loops become `Nat` comparison and successor. -/
def toOrdinal : Nat × Nat × Nat → Nat
  | (y, m, d) => 365 * (y - 1) + ((y - 1) / 4 - (y - 1) / 100) + (y - 1) / 400
      + daysBeforeMonth y m + d

/-- Outcome of one request to the service facade, by HTTP status: 400, 404,
200 and 500 respectively. -/
inductive ApiResult where
  | badRequest : List Char → ApiResult
  | notFound : List Char → ApiResult
  | ok : List (Nat × AQIRecord) → ApiResult
  | serverError : List Char → ApiResult
  deriving DecidableEq

def requiredMsg : List Char := "start_date, end_date, and city are required".data

def invalidDateMsg : List Char := "Invalid date format. Use YYYY-MM-DD".data

def endBeforeStartMsg : List Char := "End date must be after start date".data

def noDataMsg (city : List Char) : List Char :=
  ("No data found for ".data) ++ city ++ (" in the specified date range".data)

/-- The facade `get_aqi_data` of the HTTP service.  Besides the response it
returns the list of days for which a bulletin fetch was attempted: the
missing-field and bad-date checks answer before any fetch, and an
end-before-start range raises inside `get_date_range` before the download
loop starts, surfacing through the catch-all handler as a 500 response with
the raised message. -/
def get_aqi_data (docAt : Nat → Option (List (List Char)))
    (city start_s end_s : List Char) : ApiResult × List Nat :=
  if city.isEmpty || start_s.isEmpty || end_s.isEmpty then
    (ApiResult.badRequest requiredMsg, [])
  else
    match parseDate start_s, parseDate end_s with
    | some ps, some pe =>
      if toOrdinal pe < toOrdinal ps then (ApiResult.serverError endBeforeStartMsg, [])
      else
        let out := process_date_range docAt city (toOrdinal ps) (toOrdinal pe)
        if out.isEmpty then
          (ApiResult.notFound (noDataMsg city), dateRangeList (toOrdinal ps) (toOrdinal pe))
        else (ApiResult.ok out, dateRangeList (toOrdinal ps) (toOrdinal pe))
    | _, _ => (ApiResult.badRequest invalidDateMsg, [])

def baseUrl : List Char := "https://cpcb.nic.in/upload/Downloads".data

/-- The first URL tried by `download_bulletin`: the base URL, a slash, and
the filename interpolation of `AQI_Bulletin_`, the date string and `.pdf`. -/
def firstUrl (dateStr : List Char) : List Char :=
  baseUrl ++ ("/".data) ++ (("AQI_Bulletin_".data) ++ dateStr ++ (".pdf".data))

/-- The URL named `alternate_url` in `download_bulletin`: the base URL and
the interpolation of `/AQI_Bulletin_`, the date string and `.pdf` in one
format string. -/
def alternateUrl (dateStr : List Char) : List Char :=
  baseUrl ++ ("/AQI_Bulletin_".data) ++ dateStr ++ (".pdf".data)

/-- The fetch logic of `download_bulletin` for one date: an already cached
file succeeds with no request; otherwise the first URL is requested and, on
failure, the `alternate_url` is requested before giving up.  The result
pairs the success flag with the requested URLs in order. -/
def download_bulletin (cachedExists : Bool) (respondOk : List Char → Bool)
    (dateStr : List Char) : Bool × List (List Char) :=
  if cachedExists then (true, [])
  else if respondOk (firstUrl dateStr) then (true, [firstUrl dateStr])
  else if respondOk (alternateUrl dateStr) then (true, [firstUrl dateStr, alternateUrl dateStr])
  else (false, [firstUrl dateStr, alternateUrl dateStr])

/-! Concrete inputs used by the witnesses and counterexamples below. -/

def cDelhi : List Char := "Delhi".data

/-- A window whose one band name is `Very Poor` and whose one number is 302. -/
def tVeryPoor : List Char := "Delhi, Very Poor, 302".data

/-- A window whose one band name is `Moderate` and whose one number is 180. -/
def wModerate : List Char := "Delhi Moderate 180".data

/-- A window with a letter-flanked digit run 123 before a standalone 200. -/
def sBoundary : List Char := "abc123 200".data

/-- A window with out-of-range standalone numbers 999 and 47 before the
in-range 180. -/
def sSkip : List Char := "Delhi 999 47 180 Good".data

/-- A band-only window occupies the first city mention and a complete one
the second. -/
def tTwoMentions : List Char :=
  "Delhi Good\nno digits here\nstill none\nnothing\nDelhi Moderate 180".data

/-- A page containing SO2 and NO2, no standalone CO token, and the word
RECORD, which contains CO as a substring. -/
def tLeakage : List Char := "Delhi Good 300 NO2 SO2 RECORD".data

/-- A window containing SO2 and NO2 and no occurrence of CO at all. -/
def sNoCO : List Char := "Delhi NO2 SO2 99".data

/-- A window where a tab separates PM from 2.5, so only whitespace removal
(not space removal) produces the PM2.5 token. -/
def tTab : List Char := "Delhi Good 300 PM\t2.5".data

/-- A window whose one band name is `Satisfactory`. -/
def wSat : List Char := "Delhi air is Satisfactory today 85".data

/-- A window whose only band-like word is the uppercase SEVERE. -/
def wSevere : List Char := "Delhi SEVERE 300".data

def pageGood : List Char := "Delhi Good 123".data

/-- A document store with bulletins on days 0 and 2 and none on day 1. -/
def w7doc : Nat → Option (List (List Char)) :=
  fun d => if d = 1 then none else if d ≤ 2 then some [pageGood] else none

def rGood : AQIRecord := ⟨bandGood, colGood, 123, []⟩

def w8doc : Nat → Option (List (List Char)) := fun _ => none

def ss8 : List Char := "2024-02-10".data

def es8 : List Char := "2024-02-01".data

def d0str : List Char := "20240101".data

/-! Helper lemmas about first-match scans, shared by the theorems below. -/

/-- A `find?` scan returns `b` exactly when `b` sits at some position whose
earlier elements all fail the test. -/
theorem find?_first {α : Type} (p : α → Bool) :
    ∀ (l : List α) (b : α), l.find? p = some b ↔
      ∃ i, l[i]? = some b ∧ p b = true ∧ ∀ a ∈ l.take i, p a = false := by
  intro l
  induction l with
  | nil => intro b; simp
  | cons x xs ih =>
    intro b
    by_cases hx : p x = true
    · rw [List.find?_cons_of_pos _ hx]
      constructor
      · intro h
        rw [Option.some_inj] at h
        subst h
        exact ⟨0, by simp, hx, by simp⟩
      · rintro ⟨i, hget, hpb, hall⟩
        cases i with
        | zero =>
          simp only [List.getElem?_cons_zero, Option.some_inj] at hget
          rw [hget]
        | succ j =>
          exfalso
          have hxmem : x ∈ (x :: xs).take (j + 1) := by
            rw [List.take_succ_cons]; exact List.mem_cons_self x _
          have := hall x hxmem
          rw [hx] at this
          exact Bool.noConfusion this
    · rw [List.find?_cons_of_neg _ hx, ih]
      have hxf : p x = false := by
        cases hpx : p x with
        | false => rfl
        | true => exact absurd hpx hx
      constructor
      · rintro ⟨i, hget, hpb, hall⟩
        refine ⟨i + 1, by simpa using hget, hpb, ?_⟩
        intro a ha
        rw [List.take_succ_cons] at ha
        rcases List.mem_cons.mp ha with h | h
        · rw [h]; exact hxf
        · exact hall a h
      · rintro ⟨i, hget, hpb, hall⟩
        cases i with
        | zero =>
          simp only [List.getElem?_cons_zero, Option.some_inj] at hget
          rw [← hget] at hpb
          exact absurd hpb hx
        | succ j =>
          refine ⟨j, by simpa using hget, hpb, ?_⟩
          intro a ha
          exact hall a (by rw [List.take_succ_cons]; exact List.mem_cons_of_mem _ ha)

/-- A `findSome?` scan returns `b` exactly when some position maps to `b`
and all earlier positions map to `none`. -/
theorem findSome?_first {α β : Type} (f : α → Option β) :
    ∀ (l : List α) (b : β), l.findSome? f = some b ↔
      ∃ i a, l[i]? = some a ∧ f a = some b ∧ ∀ x ∈ l.take i, f x = none := by
  intro l
  induction l with
  | nil => intro b; simp
  | cons x xs ih =>
    intro b
    rw [List.findSome?_cons]
    cases hfx : f x with
    | some c =>
      constructor
      · intro h
        rw [Option.some_inj] at h
        subst h
        exact ⟨0, x, by simp, hfx, by simp⟩
      · rintro ⟨i, a, hget, hfa, hall⟩
        cases i with
        | zero =>
          simp only [List.getElem?_cons_zero, Option.some_inj] at hget
          rw [← hget] at hfa
          rw [hfa] at hfx
          exact hfx.symm
        | succ j =>
          exfalso
          have hxmem : x ∈ (x :: xs).take (j + 1) := by
            rw [List.take_succ_cons]; exact List.mem_cons_self x _
          have := hall x hxmem
          rw [this] at hfx
          exact Option.noConfusion hfx
    | none =>
      rw [ih]
      constructor
      · rintro ⟨i, a, hget, hfa, hall⟩
        refine ⟨i + 1, a, by simpa using hget, hfa, ?_⟩
        intro y hy
        rw [List.take_succ_cons] at hy
        rcases List.mem_cons.mp hy with h | h
        · rw [h]; exact hfx
        · exact hall y h
      · rintro ⟨i, a, hget, hfa, hall⟩
        cases i with
        | zero =>
          simp only [List.getElem?_cons_zero, Option.some_inj] at hget
          rw [← hget] at hfa
          rw [hfa] at hfx
          exact Option.noConfusion hfx
        | succ j =>
          refine ⟨j, a, by simpa using hget, hfa, ?_⟩
          intro y hy
          exact hall y (by rw [List.take_succ_cons]; exact List.mem_cons_of_mem _ hy)

/-- When the filtered list is the singleton `[a]`, the first-match scan
returns `a`. -/
theorem find?_of_filter_eq_singleton {α : Type} (p : α → Bool) :
    ∀ (l : List α) (a : α), l.filter p = [a] → l.find? p = some a := by
  intro l
  induction l with
  | nil => intro a h; exact absurd h (by simp)
  | cons x xs ih =>
    intro a h
    by_cases hx : p x = true
    · rw [List.filter_cons_of_pos hx] at h
      rw [List.find?_cons_of_pos _ hx]
      rw [List.cons_eq_cons] at h
      rw [h.1]
    · have hxf : p x = false := by
        cases hpx : p x with
        | false => rfl
        | true => exact absurd hpx hx
      rw [List.filter_cons_of_neg (by rw [hxf]; exact Bool.false_ne_true)] at h
      rw [List.find?_cons_of_neg _ hx]
      exact ih a h

/-- `filterMap` carries a pairwise relation along the partial function. -/
theorem pairwise_filterMap_of {α β : Type} (f : α → Option β)
    {R : α → α → Prop} {S : β → β → Prop}
    (h : ∀ a b x y, R a b → f a = some x → f b = some y → S x y) :
    ∀ l : List α, l.Pairwise R → (l.filterMap f).Pairwise S := by
  intro l hl
  induction hl with
  | nil => simp
  | @cons a l2 hx _ ih =>
    rw [List.filterMap_cons]
    cases hfa : f a with
    | none => exact ih
    | some x =>
      rw [List.pairwise_cons]
      refine ⟨?_, ih⟩
      intro y hy
      rcases List.mem_filterMap.mp hy with ⟨b, hb, hfb⟩
      exact h a b x y (hx b hb) hfa hfb

/-! Claim theorems. -/

/-- C1: the severity band assigned to a window is the first category in the
fixed declared order Good, Satisfactory, Moderate, Poor, Very Poor, Severe
that occurs as a literal substring of the window text; once one category
matches, no later category can influence the result. -/
theorem C1_band_first_match (w : List Char) (p : List Char × List Char) :
    find_band w = some p ↔
      ∃ i, aqi_colors[i]? = some p ∧ containsSub p.1 w = true ∧
        ∀ q ∈ aqi_colors.take i, containsSub q.1 w = false :=
  find?_first _ aqi_colors p

/-- Witness for C1 at a concrete window: `Satisfactory` is the band at
position 1 and `Good` (the only earlier category) is absent. -/
theorem C1_band_first_match_witness :
    find_band wSat = some (bandSatisfactory, colSatisfactory) :=
  (C1_band_first_match wSat (bandSatisfactory, colSatisfactory)).mpr
    ⟨1, by decide, by decide, by decide⟩

/-- C2 counterexample: the window `Delhi, Very Poor, 302` carries the one
band name `Very Poor` and the one in-range number 302, yet the extractor
returns the band `Poor`, because `Poor` precedes `Very Poor` in the declared
order and occurs inside it as a substring. -/
theorem C2_counterexample :
    containsSub bandVeryPoor tVeryPoor = true ∧
    find_data_in_text tVeryPoor cDelhi = some ⟨bandPoor, colPoor, 302, []⟩ ∧
    bandPoor ≠ bandVeryPoor :=
  ⟨by decide, by decide, by decide⟩

/-- C2 amended: for a window whose first declared-order band substring is
`b` (position `i`, all earlier categories absent) and whose standalone 2-3
digit numbers have exactly one in-range value `n`, the extractor produces
the record with band `b` and value `n`. -/
theorem C2_unique_band_and_number (w b c : List Char) (n i : Nat)
    (hget : aqi_colors[i]? = some (b, c))
    (hsub : containsSub b w = true)
    (hfirst : ∀ q ∈ aqi_colors.take i, containsSub q.1 w = false)
    (hnum : (numberCandidates w).filter inRange = [n]) :
    processWindow w = some ⟨b, c, n, find_pollutants w⟩ := by
  have hband : find_band w = some (b, c) :=
    (find?_first _ aqi_colors (b, c)).mpr ⟨i, hget, hsub, hfirst⟩
  have hidx : find_index w = some n :=
    find?_of_filter_eq_singleton inRange (numberCandidates w) n hnum
  unfold processWindow
  rw [hband, hidx]

/-- Witness for C2 at a concrete window with band `Moderate` and number
180. -/
theorem C2_unique_band_and_number_witness :
    processWindow wModerate = some ⟨bandModerate, colModerate, 180, []⟩ :=
  C2_unique_band_and_number wModerate bandModerate colModerate 180 2
    (by decide) (by decide) (by decide) (by decide)

/-- C3 counterexample: in the window `abc123 200`, the first maximal digit
run of length 3 reads 123 and lies in range, but the extractor selects 200:
the regex word boundaries reject the digit run glued to letters. -/
theorem C3_counterexample :
    find_index sBoundary = some 200 ∧
    find_index_spec sBoundary = some 123 ∧
    find_index sBoundary ≠ find_index_spec sBoundary :=
  ⟨by decide, by decide, by decide⟩

/-- C3 amended: the index value of a window is the first standalone 2-3
digit number (a maximal word-character run of digits of length 2 or 3, as
delimited by the regex word boundaries) whose value lies in 50..500;
out-of-range candidates before it are skipped without blocking it. -/
theorem C3_first_in_range_number (s : List Char) (n : Nat) :
    find_index s = some n ↔
      ∃ i, (numberCandidates s)[i]? = some n ∧ inRange n = true ∧
        ∀ m ∈ (numberCandidates s).take i, inRange m = false :=
  find?_first inRange (numberCandidates s) n

/-- Witness for C3: the out-of-range 999 and 47 are skipped and the later
180 is selected. -/
theorem C3_first_in_range_number_witness :
    find_index sSkip = some 180 :=
  (C3_first_in_range_number sSkip 180).mpr ⟨2, by decide, by decide, by decide⟩

/-- C4: the extractor's result is exactly the record of the first candidate
window (in document order) on which both a band and an index value are
found; windows are never merged, and incomplete windows before the winning
one contribute nothing. -/
theorem C4_first_complete_window (text city : List Char) (r : AQIRecord) :
    find_data_in_text text city = some r ↔
      ∃ i w, (candidateWindows text city)[i]? = some w ∧ processWindow w = some r ∧
        ∀ w2 ∈ (candidateWindows text city).take i, processWindow w2 = none :=
  findSome?_first processWindow (candidateWindows text city) r

/-- Witness for C4 on a page mentioning the city twice, the first mention
incomplete (band but no number): the result is the second window's record. -/
theorem C4_first_complete_window_witness :
    ∃ i w, (candidateWindows tTwoMentions cDelhi)[i]? = some w ∧
      processWindow w = some ⟨bandModerate, colModerate, 180, []⟩ ∧
      ∀ w2 ∈ (candidateWindows tTwoMentions cDelhi).take i, processWindow w2 = none :=
  (C4_first_complete_window tTwoMentions cDelhi ⟨bandModerate, colModerate, 180, []⟩).mp
    (by decide)

/-- C5 counterexample: the page `Delhi Good 300 NO2 SO2 RECORD` contains
SO2 and NO2 and no standalone CO token, yet the extracted record lists CO,
because `RECORD` contains `CO` as a substring. -/
theorem C5_counterexample :
    containsSub tokSO2 tLeakage = true ∧
    containsSub tokNO2 tLeakage = true ∧
    tokCO ∉ wordRuns tLeakage ∧
    find_data_in_text tLeakage cDelhi
      = some ⟨bandGood, colGood, 300, [dispNO2, dispSO2, dispCO]⟩ ∧
    dispCO ∈ (AQIRecord.mk bandGood colGood 300 [dispNO2, dispSO2, dispCO]).pollutants :=
  ⟨by decide, by decide, by decide, by decide, by decide⟩

/-- C5 amended: CO joins the pollutant list exactly on a substring hit, so
whenever the space-stripped window has no occurrence of the two-character
sequence CO at all (in particular the tokens SO2 and NO2 create none), the
pollutant list omits CO. -/
theorem C5_no_CO_without_substring (s : List Char)
    (h : containsSub tokCO (removeSpaces s) = false) :
    dispCO ∉ find_pollutants s := by
  intro hmem
  unfold find_pollutants at hmem
  rcases List.mem_map.mp hmem with ⟨q, hq, hq2⟩
  rcases List.mem_filter.mp hq with ⟨hqmem, hqcond⟩
  have hqeq : q = (tokCO, dispCO) := by
    have key : ∀ q2 ∈ pollutantTokens, q2.2 = dispCO → q2 = (tokCO, dispCO) := by decide
    exact key q hqmem hq2
  rw [hqeq] at hqcond
  have : containsSub tokCO (removeSpaces s) = true := hqcond
  rw [h] at this
  exact Bool.noConfusion this

/-- Witness for C5 amended on a window containing SO2 and NO2 and no CO
substring. -/
theorem C5_no_CO_without_substring_witness :
    dispCO ∉ find_pollutants sNoCO :=
  C5_no_CO_without_substring sNoCO (by decide)

/-- C6 counterexample: in the window containing a tab inside `PM 2.5`, the
extracted record's pollutant list is empty, although PM2.5 occurs in the
whitespace-stripped window as the claim reads it (only spaces are removed
by the code, not tabs). -/
theorem C6_counterexample :
    find_data_in_text tTab cDelhi = some ⟨bandGood, colGood, 300, []⟩ ∧
    find_pollutants tTab = [] ∧
    find_pollutants_spec tTab = [dispPM25] ∧
    find_pollutants tTab ≠ find_pollutants_spec tTab :=
  ⟨by decide, by decide, by decide, by decide⟩

/-- C6 amended: the pollutant list is a duplicate-free sublist of the fixed
display order, and a pollutant appears in it exactly when its token occurs
in the space-stripped (not whitespace-stripped) window — every present
token is collected, in the fixed order. -/
theorem C6_pollutant_list_invariant (s : List Char) :
    (find_pollutants s).Sublist (pollutantTokens.map Prod.snd) ∧
    (find_pollutants s).Nodup ∧
    ∀ q ∈ pollutantTokens,
      (q.2 ∈ find_pollutants s ↔ containsSub q.1 (removeSpaces s) = true) := by
  refine ⟨?_, ?_, ?_⟩
  · exact List.Sublist.map Prod.snd (List.filter_sublist _)
  · have hnd : (pollutantTokens.map Prod.snd).Nodup := by decide
    exact (List.Sublist.map Prod.snd (List.filter_sublist _)).nodup hnd
  · intro q hq
    constructor
    · intro hmem
      rcases List.mem_map.mp hmem with ⟨q2, hq2mem, hq2eq⟩
      rcases List.mem_filter.mp hq2mem with ⟨hq2tok, hq2cond⟩
      have hinj : ∀ a ∈ pollutantTokens, ∀ b ∈ pollutantTokens, a.2 = b.2 → a = b := by
        decide
      have hqq : q2 = q := hinj q2 hq2tok q hq hq2eq
      rw [hqq] at hq2cond
      exact hq2cond
    · intro hcond
      exact List.mem_map.mpr ⟨q, List.mem_filter.mpr ⟨hq, hcond⟩, rfl⟩

/-- Witness for C6 on a concrete window: the NO2 display name is present
exactly because the NO2 token occurs in the space-stripped window. -/
theorem C6_pollutant_list_invariant_witness :
    dispNO2 ∈ find_pollutants sNoCO ↔ containsSub tokNO2 (removeSpaces sNoCO) = true :=
  (C6_pollutant_list_invariant sNoCO).2.2 (tokNO2, dispNO2) (by decide)

/-- C7: over any valid range the orchestrator's output is strictly
ascending by date (hence duplicate-free with at most one record per date),
no longer than the number of days in the range, and every emitted record
comes from a successful scan of that date's document; dates whose document
is absent or yields nothing produce no output element. -/
theorem C7_orchestrator_output (docAt : Nat → Option (List (List Char))) (city : List Char)
    (s e : Nat) (hse : s ≤ e) :
    (process_date_range docAt city s e).Pairwise (fun p q => p.1 < q.1) ∧
    (process_date_range docAt city s e).length ≤ e + 1 - s ∧
    (∀ p ∈ process_date_range docAt city s e,
      s ≤ p.1 ∧ p.1 ≤ e ∧ (docAt p.1).bind (process_pdf city) = some p.2) ∧
    (∀ d, (docAt d).bind (process_pdf city) = none →
      ∀ r, (d, r) ∉ process_date_range docAt city s e) := by
  have hmemchar : ∀ p ∈ process_date_range docAt city s e,
      s ≤ p.1 ∧ p.1 ≤ e ∧ (docAt p.1).bind (process_pdf city) = some p.2 := by
    intro p hp
    unfold process_date_range at hp
    rcases List.mem_filterMap.mp hp with ⟨d, hd, hfd⟩
    unfold dateRangeList at hd
    rcases List.mem_map.mp hd with ⟨k, hk, hkd⟩
    rw [List.mem_range] at hk
    cases hbd : (docAt d).bind (process_pdf city) with
    | none => rw [hbd] at hfd; exact Option.noConfusion hfd
    | some r =>
      rw [hbd] at hfd
      have hpr : (d, r) = p := Option.some_inj.mp hfd
      subst hpr
      subst hkd
      exact ⟨Nat.le_add_right s k, by omega, hbd⟩
  have hpair : (process_date_range docAt city s e).Pairwise (fun p q => p.1 < q.1) := by
    unfold process_date_range
    apply pairwise_filterMap_of (R := fun a b => a < b)
    · intro a b x y hab hfa hfb
      cases ha : (docAt a).bind (process_pdf city) with
      | none => rw [ha] at hfa; exact Option.noConfusion hfa
      | some r =>
        rw [ha] at hfa
        cases hb : (docAt b).bind (process_pdf city) with
        | none => rw [hb] at hfb; exact Option.noConfusion hfb
        | some r2 =>
          rw [hb] at hfb
          have hx : (a, r) = x := Option.some_inj.mp hfa
          have hy : (b, r2) = y := Option.some_inj.mp hfb
          rw [← hx, ← hy]
          exact hab
    · unfold dateRangeList
      refine List.Pairwise.map _ ?_ (List.pairwise_lt_range _)
      intro a b hab
      omega
  have hlen : (process_date_range docAt city s e).length ≤ e + 1 - s := by
    unfold process_date_range
    calc (List.filterMap _ (dateRangeList s e)).length
        ≤ (dateRangeList s e).length := List.length_filterMap_le _ _
      _ = e + 1 - s := by
        unfold dateRangeList
        rw [List.length_map, List.length_range]
  refine ⟨hpair, hlen, hmemchar, ?_⟩
  intro d hnone r hmem
  have h2 : (docAt d).bind (process_pdf city) = some r := (hmemchar (d, r) hmem).2.2
  rw [hnone] at h2
  exact Option.noConfusion h2

/-- Witness for C7 on a three-day range with the middle day's bulletin
absent: the record for day 2 stems from day 2's own document. -/
theorem C7_orchestrator_output_witness :
    0 ≤ ((2 : Nat), rGood).1 ∧ ((2 : Nat), rGood).1 ≤ 2 ∧
      (w7doc ((2 : Nat), rGood).1).bind (process_pdf cDelhi) = some ((2 : Nat), rGood).2 :=
  (C7_orchestrator_output w7doc cDelhi 0 2 (by decide)).2.2.1 (2, rGood) (by decide)

/-- C8: a request with an unparsable date answers 400 with no fetch
attempted; a well-formed request whose end date precedes its start date
answers before any fetch with the raised end-before-start message (a 500,
as the raise crosses the catch-all handler); both outcomes differ from the
empty-result (404) and success (200) responses. -/
theorem C8_validation_before_fetch (docAt : Nat → Option (List (List Char)))
    (city ss es : List Char) :
    ((parseDate ss = none ∨ parseDate es = none) →
      ((get_aqi_data docAt city ss es).1 = ApiResult.badRequest requiredMsg ∨
        (get_aqi_data docAt city ss es).1 = ApiResult.badRequest invalidDateMsg) ∧
      (get_aqi_data docAt city ss es).2 = []) ∧
    (∀ ps pe, city.isEmpty = false → parseDate ss = some ps → parseDate es = some pe →
      toOrdinal pe < toOrdinal ps →
      get_aqi_data docAt city ss es = (ApiResult.serverError endBeforeStartMsg, [])) ∧
    (∀ m data, ApiResult.badRequest m ≠ ApiResult.notFound m ∧
      ApiResult.serverError m ≠ ApiResult.notFound m ∧
      ApiResult.badRequest m ≠ ApiResult.ok data ∧
      ApiResult.serverError m ≠ ApiResult.ok data) := by
  refine ⟨?_, ?_, ?_⟩
  · intro h
    unfold get_aqi_data
    by_cases hemp : (city.isEmpty || ss.isEmpty || es.isEmpty) = true
    · rw [if_pos hemp]
      exact ⟨Or.inl rfl, rfl⟩
    · rw [if_neg hemp]
      cases hs : parseDate ss with
      | none =>
        cases he : parseDate es with
        | none => exact ⟨Or.inr rfl, rfl⟩
        | some pe => exact ⟨Or.inr rfl, rfl⟩
      | some ps =>
        cases he : parseDate es with
        | none => exact ⟨Or.inr rfl, rfl⟩
        | some pe =>
          exfalso
          rcases h with h | h
          · rw [hs] at h; exact Option.noConfusion h
          · rw [he] at h; exact Option.noConfusion h
  · intro ps pe hc hs he hlt
    have hss : ss.isEmpty = false := by
      cases ss with
      | nil => rw [show parseDate [] = none from rfl] at hs; exact Option.noConfusion hs
      | cons a l => rfl
    have hes : es.isEmpty = false := by
      cases es with
      | nil => rw [show parseDate [] = none from rfl] at he; exact Option.noConfusion he
      | cons a l => rfl
    simp [get_aqi_data, hc, hss, hes, hs, he, hlt]
  · intro m data
    refine ⟨?_, ?_, ?_, ?_⟩ <;> intro h <;> exact ApiResult.noConfusion h

/-- Witness for C8 on the reversed range 2024-02-10 to 2024-02-01: the
answer is the end-before-start error and the fetched-day list is empty. -/
theorem C8_validation_before_fetch_witness :
    get_aqi_data w8doc cDelhi ss8 es8 = (ApiResult.serverError endBeforeStartMsg, []) :=
  (C8_validation_before_fetch w8doc cDelhi ss8 es8).2.1 (2024, 2, 10) (2024, 2, 1)
    (by decide) (by decide) (by decide) (by decide)

/-- C9: the URL called `alternate_url` in `download_bulletin` is built by
the same interpolation as the first URL, so the retry requests the
identical resource name (the code's own comment announces an alternate
pattern); an already cached date succeeds with no request at all. -/
theorem C9_retry_same_url_and_cache :
    (∀ dateStr : List Char, firstUrl dateStr = alternateUrl dateStr) ∧
    (download_bulletin false (fun _ => false) d0str).2 = [firstUrl d0str, firstUrl d0str] ∧
    (∀ f : List Char → Bool, download_bulletin true f d0str = (true, [])) := by
  have hpre : ("/".data) ++ ("AQI_Bulletin_".data) = ("/AQI_Bulletin_".data) := by decide
  have hcat : ∀ X : List Char,
      ("/".data) ++ (("AQI_Bulletin_".data) ++ X) = ("/AQI_Bulletin_".data) ++ X := by
    intro X
    rw [← List.append_assoc, hpre]
  refine ⟨?_, by decide, fun f => rfl⟩
  intro d
  unfold firstUrl alternateUrl
  simp only [List.append_assoc, hcat]

/-- C10: line candidacy compares lowercased city against lowercased line,
so any letter case of either matches alike; band matching is
case-sensitive, so a window containing no band name in its declared
spelling yields no record even if an in-range number is present. -/
theorem C10_city_insensitive_band_sensitive :
    (∀ c1 c2 l1 l2 : List Char, lowerStr c1 = lowerStr c2 → lowerStr l1 = lowerStr l2 →
      candidateLine c1 l1 = candidateLine c2 l2) ∧
    (∀ w : List Char, (∀ q ∈ aqi_colors, containsSub q.1 w = false) →
      processWindow w = none) := by
  constructor
  · intro c1 c2 l1 l2 hc hl
    unfold candidateLine
    rw [hc, hl]
  · intro w h
    have hband : find_band w = none := by
      apply List.find?_eq_none.mpr
      intro q hq hcontra
      have : containsSub q.1 w = true := hcontra
      rw [h q hq] at this
      exact Bool.noConfusion this
    unfold processWindow
    rw [hband]

/-- Witness for C10: the uppercase city DELHI still makes a line a
candidate, while the window whose only band-like word is the uppercase
SEVERE has an in-range number 300 and yet yields no record. -/
theorem C10_city_insensitive_band_sensitive_witness :
    candidateLine ("DELHI".data) ("new delhi news".data)
        = candidateLine cDelhi ("New Delhi news".data) ∧
    find_index wSevere = some 300 ∧ processWindow wSevere = none :=
  ⟨C10_city_insensitive_band_sensitive.1 ("DELHI".data) cDelhi
      ("new delhi news".data) ("New Delhi news".data) (by decide) (by decide),
   by decide,
   C10_city_insensitive_band_sensitive.2 wSevere (by decide)⟩
